import Mathlib

/-!
# Verification of the fighter-man sensor pipeline core

Shallow embedding of:
* the edge-side durable buffer (`sensor-hub/lib/database/base.py`,
  `foot_db.py`) and the reliable sender (`sensor-hub/senders/base.py`);
* the server-side window assembler, vector encoder and vector index
  (`firefighter-server/lib/vector_store.py`, `lib/config.py`).

Machine integers are modelled as `Nat`/`Int`, timestamps as `Int`
milliseconds, sensor values as `ℚ`, and the (floating point) normalised
vector as `List ℝ`.  External effects (SQLite, the network, Qdrant) are
modelled as explicit state; the outcome of one delivery attempt
(socket or any HTTP fallback) is an oracle boolean.
-/

namespace SensorHub

/-- One row of a per-stream SQLite table (`foot_readings` /
`accel_readings`): synthetic ascending id, stream-specific payload
columns (abstracted as `α`), and the `sent` flag (`INTEGER DEFAULT 0`,
modelled as `Bool`). -/
structure BufRecord (α : Type) where
  id : Nat
  payload : α
  sent : Bool
  deriving DecidableEq, Repr

/-- The state of one SQLite buffer database: the rows in insertion order
(SQLite `AUTOINCREMENT` hands out ascending ids, so insertion order is
id order) and the next id `AUTOINCREMENT` will assign. -/
structure DB (α : Type) where
  rows : List (BufRecord α)
  nextId : Nat
  deriving DecidableEq, Repr

/-- A freshly initialised database: empty table, `AUTOINCREMENT` starts
at 1. -/
def DB.empty (α : Type) : DB α := ⟨[], 1⟩

/-- Well-formedness of a buffer database, maintained by every operation:
row ids are strictly increasing in storage order and below `nextId`.
This is what SQLite's `AUTOINCREMENT` primary key guarantees. -/
def DB.wf {α : Type} (db : DB α) : Prop :=
  db.rows.Pairwise (fun r s => r.id < s.id) ∧ ∀ r ∈ db.rows, r.id < db.nextId

instance {α : Type} [DecidableEq α] (db : DB α) : Decidable db.wf := by
  unfold DB.wf; infer_instance

/-- `FootDatabase.save_record` / `AccelDatabase.save_record`: `INSERT`s a
new row (the `sent` column defaults to 0) and lets `AUTOINCREMENT`
assign the next id. -/
def saveRecord {α : Type} (db : DB α) (p : α) : DB α :=
  ⟨db.rows ++ [⟨db.nextId, p, false⟩], db.nextId + 1⟩

/-- `DatabaseBase.fetch_batch`:
`SELECT * FROM t WHERE sent = 0 ORDER BY id LIMIT ?`.  Rows are stored
in ascending-id order, so the filtered list is already ordered by id. -/
def fetchBatch {α : Type} (db : DB α) (limit : Nat) : List (BufRecord α) :=
  (db.rows.filter (fun r => !r.sent)).take limit

/-- `DatabaseBase.mark_sent`:
`UPDATE t SET sent = 1 WHERE id IN (...)`. -/
def markSent {α : Type} (db : DB α) (ids : List Nat) : DB α :=
  ⟨db.rows.map (fun r => if r.id ∈ ids then { r with sent := true } else r),
   db.nextId⟩

/-- `DatabaseBase.count_unsent`:
`SELECT COUNT(*) FROM t WHERE sent = 0`. -/
def countUnsent {α : Type} (db : DB α) : Nat :=
  (db.rows.filter (fun r => !r.sent)).length

/-- A buffer operation: an `append` (`save_record`) or a `mark_sent`. -/
inductive BufOp (α : Type) where
  | save (p : α)
  | mark (ids : List Nat)
  deriving DecidableEq, Repr

/-- Run one buffer operation. -/
def applyOp {α : Type} (db : DB α) : BufOp α → DB α
  | .save p => saveRecord db p
  | .mark ids => markSent db ids

/-- Run a sequence of buffer operations from the empty database. -/
def applyOps {α : Type} (ops : List (BufOp α)) : DB α :=
  ops.foldl applyOp (DB.empty α)

/-- The fields of `SenderConfig` the sender loop reads (`lib/config.py`):
batch size, exponential-backoff base delay and the backoff cap, all
Python ints (defaults 100, 60 and 3600). -/
structure SenderConfig where
  maxRecords : Nat
  retryBackoffBase : Nat
  maxBackoff : Nat
  deriving DecidableEq, Repr

/-- The mutable state of one `DataSenderBase`: its buffer database and
the `_consecutive_failures` counter (initialised to 0). -/
structure SenderState (α : Type) where
  db : DB α
  failures : Nat
  deriving DecidableEq, Repr

/-- `DataSenderBase._calculate_backoff`:
`min(retry_backoff_base * 2 ** consecutive_failures, max_backoff)`. -/
def calculateBackoff (cfg : SenderConfig) (failures : Nat) : Nat :=
  min (cfg.retryBackoffBase * 2 ^ failures) cfg.maxBackoff

/-- `DataSenderBase.process_batch`. `transform` is the stream database's
`transform_for_send`, which may raise (`none` = exception, caught and
logged by the sender); `sendOk` is the outcome of `send_batch` (socket
first, then each HTTP fallback).  Returns the reported success flag and
the new sender state. -/
def processBatch {α β : Type} (transform : BufRecord α → Option β)
    (cfg : SenderConfig) (sendOk : Bool) (s : SenderState α) :
    Bool × SenderState α :=
  let rows := fetchBatch s.db cfg.maxRecords
  if rows.isEmpty then (true, s)
  else
    let recordIds := (rows.filter (fun r => (transform r).isSome)).map (·.id)
    if (rows.filterMap transform).isEmpty then (true, s)
    else if sendOk then
      (true, ⟨markSent s.db recordIds, 0⟩)
    else
      (false, ⟨s.db, s.failures + 1⟩)

/-- Run one cycle per entry of `oks` (the delivery outcome of each
cycle), keeping only the state — the sender loop's repeated
`process_batch` calls. -/
def runBatches {α β : Type} (transform : BufRecord α → Option β)
    (cfg : SenderConfig) (oks : List Bool) (s : SenderState α) :
    SenderState α :=
  oks.foldl (fun s ok => (processBatch transform cfg ok s).2) s

end SensorHub

namespace FirefighterServer

/-- One incoming sensor reading (a JSON dict on the wire).  `timestamp`
is the parsed ISO-8601 timestamp in epoch milliseconds (`none` when
`datetime.fromisoformat` would raise); `device` is `none` when the
`device` key is absent.  `values` is `data.get("values", [])` of a foot
reading; the nine optional fields are the inertial reading's
`acc`/`gyro`/`angle` components (`none` when the key is absent). -/
structure Reading where
  timestamp : Option Int
  device : Option String
  values : List ℚ
  accX : Option ℚ
  accY : Option ℚ
  accZ : Option ℚ
  gyroX : Option ℚ
  gyroY : Option ℚ
  gyroZ : Option ℚ
  roll : Option ℚ
  pitch : Option ℚ
  yaw : Option ℚ
  deriving DecidableEq, Repr

/-- A reading with every field absent / empty. -/
def Reading.blank : Reading := ⟨none, none, [], none, none, none, none, none, none, none, none, none⟩

/-- The timestamp `add_reading` works with: the parsed ISO-8601
timestamp, or the wall-clock receive time `now` (`time.time() * 1000`)
when parsing fails. -/
def timestampMs (r : Reading) (now : Int) : Int :=
  match r.timestamp with
  | some t => t
  | none => now

/-- `SensorWindow` (`vector_store.py`): an in-progress, session-scoped
aggregate of readings. -/
structure SensorWindow where
  sessionId : String
  device : String
  startTime : Int
  endTime : Int
  footReadings : List Reading
  accelReadings : List Reading
  label : Option String
  deriving DecidableEq, Repr

/-- The `QdrantConfig` fields the vector store reads: the collection
dimension (default 270) and the window span threshold in milliseconds
(default 500). -/
structure QdrantConfig where
  vectorDimension : Nat := 270
  windowSizeMs : Int := 500
  deriving DecidableEq, Repr

/-- `VectorStore._foot_reading_to_vector`: `data.get("values", [])`,
padded with `0.0` up to 18 entries, then truncated to 18. -/
def footReadingToVector (r : Reading) : List ℚ :=
  let values := r.values
  let padded := if values.length < 18
    then values ++ List.replicate (18 - values.length) 0
    else values
  padded.take 18

/-- `VectorStore._accel_reading_to_vector`: the nine inertial components
in fixed order, each defaulting to `0.0` when the key is absent. -/
def accelReadingToVector (r : Reading) : List ℚ :=
  [r.accX.getD 0, r.accY.getD 0, r.accZ.getD 0,
   r.gyroX.getD 0, r.gyroY.getD 0, r.gyroZ.getD 0,
   r.roll.getD 0, r.pitch.getD 0, r.yaw.getD 0]

/-- Python's `xs[-n:]`: the last `n` elements (all of them when the list
is shorter). -/
def takeLast {α : Type} (xs : List α) (n : Nat) : List α :=
  xs.drop (xs.length - n)

/-- The `while len(vec) < target: vec.extend([0.0] * step)` padding loop
of `_window_to_vector`; each iteration appends `step + 1` zeros (the
code's step of 18 is `padLoop 17`, the step of 9 is `padLoop 8`). -/
def padLoop (step target : Nat) (v : List ℚ) : List ℚ :=
  if v.length < target then padLoop step target (v ++ List.replicate (step + 1) 0)
  else v
  termination_by target - v.length
  decreasing_by simp_all; omega

/-- `VectorStore._normalize_vector`: `arr / norm(arr)` when the L2 norm
is positive, the vector unchanged otherwise.  Modelled over the reals
(the code computes in `float32`). -/
noncomputable def normalizeVector (v : List ℚ) : List ℝ :=
  let arr : List ℝ := v.map (fun x => (Rat.cast x : ℝ))
  let n : ℝ := Real.sqrt (arr.map (fun x => x ^ 2)).sum
  if 0 < n then arr.map (fun x => x / n) else arr

/-- `VectorStore._window_to_vector`: last 10 readings of each stream,
18 values per foot reading padded to 180, 9 values per inertial reading
padded to 90, concatenated and L2-normalised. -/
noncomputable def windowToVector (w : SensorWindow) : List ℝ :=
  let footReadings := takeLast w.footReadings 10
  let accelReadings := takeLast w.accelReadings 10
  let footVector := padLoop 17 180 ((footReadings.map footReadingToVector).flatten)
  let accelVector := padLoop 8 90 ((accelReadings.map accelReadingToVector).flatten)
  normalizeVector (footVector.take 180 ++ accelVector.take 90)

/-- The payload stored with each Qdrant point by `_store_window`.  The
`raw_data` JSON blob is modelled as the two reading lists it
serialises. -/
structure Payload where
  sessionId : String
  device : String
  startTime : Int
  endTime : Int
  footCount : Nat
  accelCount : Nat
  label : Option String
  rawFoot : List Reading
  rawAccel : List Reading
  deriving DecidableEq, Repr

/-- A point of the Qdrant collection: generated id, encoded vector and
payload. -/
structure Point where
  id : String
  vector : List ℝ
  payload : Payload

/-- The state of a `VectorStore`: the in-progress windows
(`_active_windows`, a dict keyed by session id, modelled as an
association list with pairwise-distinct keys) and the Qdrant
collection's points. -/
structure VState where
  windows : List (String × SensorWindow)
  index : List Point

/-- The window `add_reading` creates for a session with no active
window: seeded with this reading's device (`"unknown"` when absent),
`start_time = end_time =` this reading's timestamp and empty stream
lists. -/
def newWindow (sessionId : String) (r : Reading) (ts : Int) : SensorWindow :=
  ⟨sessionId, r.device.getD "unknown", ts, ts, [], [], none⟩

/-- Replace the window stored under `sessionId` (dict assignment to an
existing key). -/
def updateWindow (m : List (String × SensorWindow)) (sessionId : String)
    (w : SensorWindow) : List (String × SensorWindow) :=
  m.map (fun p => if p.1 = sessionId then (sessionId, w) else p)

/-- `del self._active_windows[session_id]`. -/
def removeWindow (m : List (String × SensorWindow)) (sessionId : String) :
    List (String × SensorWindow) :=
  m.filter (fun p => p.1 ≠ sessionId)

/-- The point `_store_window` upserts for a completed window. -/
noncomputable def mkPoint (pointId : String) (w : SensorWindow) : Point :=
  ⟨pointId,
   windowToVector w,
   ⟨w.sessionId, w.device, w.startTime, w.endTime,
    w.footReadings.length, w.accelReadings.length, w.label,
    w.footReadings, w.accelReadings⟩⟩

/-- `VectorStore._store_window`: generate a point id (the fresh
`uuid4`, passed in as `pointId`), encode the window and upsert the
point; returns the id. -/
noncomputable def storeWindow (st : VState) (w : SensorWindow)
    (pointId : String) : String × VState :=
  (pointId, ⟨st.windows, st.index ++ [mkPoint pointId w]⟩)

/-- The reading-dispatch step of `add_reading`: append to
`foot_readings` when the type is `"foot"`, to `accel_readings` when it
is `"accel"`, to neither list otherwise. -/
def appendReading (w : SensorWindow) (sensorType : String) (r : Reading) :
    SensorWindow :=
  if sensorType = "foot" then { w with footReadings := w.footReadings ++ [r] }
  else if sensorType = "accel" then { w with accelReadings := w.accelReadings ++ [r] }
  else w

/-- `VectorStore.add_reading`.  `now` is the wall-clock receive time in
milliseconds (the fallback for an unparseable timestamp) and `freshId`
the uuid `_store_window` would generate.  Returns the stored point's id
(when the window completed) and the new state. -/
noncomputable def addReading (cfg : QdrantConfig) (st : VState)
    (sessionId sensorType : String) (r : Reading) (now : Int)
    (freshId : String) : Option String × VState :=
  if sessionId = "" then (none, st)
  else
    let ts := timestampMs r now
    let w := match st.windows.lookup sessionId with
      | some w => w
      | none => newWindow sessionId r ts
    let m := if (st.windows.lookup sessionId).isSome then st.windows
      else st.windows ++ [(sessionId, newWindow sessionId r ts)]
    let w₂ := { appendReading w sensorType r with endTime := ts }
    if cfg.windowSizeMs ≤ w₂.endTime - w₂.startTime then
      let (pointId, st') := storeWindow ⟨m, st.index⟩ w₂ freshId
      (some pointId, ⟨removeWindow st'.windows sessionId, st'.index⟩)
    else
      (none, ⟨updateWindow m sessionId w₂, st.index⟩)

/-- `VectorStore.delete_session`: `scroll` collects the ids of every
point whose payload `session_id` matches, then (when any matched) one
bulk delete by id; returns how many ids were collected. -/
def deleteSession (st : VState) (sessionId : String) : Nat × VState :=
  let pointsToDelete :=
    (st.index.filter (fun p => p.payload.sessionId = sessionId)).map (·.id)
  let index' :=
    if pointsToDelete.isEmpty then st.index
    else st.index.filter (fun p => p.id ∉ pointsToDelete)
  (pointsToDelete.length, ⟨st.windows, index'⟩)

/-- A concrete foot reading whose first pressure value is 2. -/
def exampleFootReading : Reading := { Reading.blank with values := [2] }

/-- A concrete window with exactly 3 foot readings and no inertial
readings; the only nonzero extracted value is a 2 in the first slot. -/
def exampleWindow : SensorWindow :=
  ⟨"s", "dev", 0, 0, [exampleFootReading, Reading.blank, Reading.blank], [], none⟩

end FirefighterServer

namespace SensorHub

theorem mem_rows_of_mem_fetchBatch {α : Type} {db : DB α} {limit : Nat}
    {r : BufRecord α} (h : r ∈ fetchBatch db limit) : r ∈ db.rows :=
  List.mem_of_mem_filter (List.mem_of_mem_take h)

theorem sent_false_of_mem_fetchBatch {α : Type} {db : DB α} {limit : Nat}
    {r : BufRecord α} (h : r ∈ fetchBatch db limit) : r.sent = false := by
  have := List.of_mem_filter (List.mem_of_mem_take h)
  simpa using this

theorem wf_empty (α : Type) : (DB.empty α).wf := by
  constructor <;> simp [DB.empty]

theorem wf_saveRecord {α : Type} {db : DB α} (h : db.wf) (p : α) :
    (saveRecord db p).wf := by
  obtain ⟨hpw, hlt⟩ := h
  constructor
  · simp only [saveRecord, List.pairwise_append]
    exact ⟨hpw, List.pairwise_singleton _ _, by
      intro r hr s hs
      simp only [List.mem_singleton] at hs
      subst hs
      exact hlt r hr⟩
  · intro r hr
    simp only [saveRecord, List.mem_append, List.mem_singleton] at hr
    rcases hr with hr | rfl
    · exact Nat.lt_succ_of_lt (hlt r hr)
    · exact Nat.lt_succ_self _

theorem wf_markSent {α : Type} {db : DB α} (h : db.wf) (ids : List Nat) :
    (markSent db ids).wf := by
  obtain ⟨hpw, hlt⟩ := h
  constructor
  · simp only [markSent, List.pairwise_map]
    refine hpw.imp_of_mem ?_
    intro r s _ _ hrs
    split <;> split <;> simpa using hrs
  · intro r hr
    simp only [markSent, List.mem_map] at hr
    obtain ⟨s, hs, rfl⟩ := hr
    split <;> simpa using hlt s hs

theorem wf_applyOp {α : Type} {db : DB α} (h : db.wf) (op : BufOp α) :
    (applyOp db op).wf := by
  cases op with
  | save p => exact wf_saveRecord h p
  | mark ids => exact wf_markSent h ids

theorem wf_applyOps {α : Type} (ops : List (BufOp α)) : (applyOps ops).wf := by
  suffices h : ∀ (db : DB α), db.wf → (ops.foldl applyOp db).wf from
    h _ (wf_empty α)
  induction ops with
  | nil => intro db h; exact h
  | cons op ops ih => intro db h; exact ih _ (wf_applyOp h op)

/-- Claim C2 (amended): after any sequence of `save_record` /
`mark_sent` operations from the empty database, a `fetch_batch` whose
limit is at least the number of unsent records returns exactly the
records whose `sent` flag is 0, in ascending id order, and never a
record already marked sent.  (The original claim is refuted by
`fetchBatch_small_limit_counterexample`: a limit below the unsent count
truncates the result.) -/
theorem fetchBatch_exactly_unsent {α : Type} (ops : List (BufOp α)) (limit : Nat)
    (h : countUnsent (applyOps ops) ≤ limit) :
    (∀ r, r ∈ fetchBatch (applyOps ops) limit ↔
        (r ∈ (applyOps ops).rows ∧ r.sent = false))
    ∧ ((fetchBatch (applyOps ops) limit).map (·.id)).Pairwise (· < ·) := by
  have hwf := wf_applyOps ops
  have hfull : fetchBatch (applyOps ops) limit
      = (applyOps ops).rows.filter (fun r => !r.sent) :=
    List.take_of_length_le h
  constructor
  · intro r
    rw [hfull, List.mem_filter]
    simp
  · rw [hfull]
    exact ((hwf.1.sublist (List.filter_sublist _)).map _ (fun _ _ h => h))

/-- The literal C2 claim is false once the limit is below the unsent
count: after two appends, `fetch_batch(1)` misses the second unsent
record. -/
theorem fetchBatch_small_limit_counterexample :
    (⟨2, 1, false⟩ : BufRecord Nat) ∈ (applyOps [BufOp.save 0, BufOp.save 1]).rows
    ∧ (⟨2, 1, false⟩ : BufRecord Nat).sent = false
    ∧ (⟨2, 1, false⟩ : BufRecord Nat) ∉
        fetchBatch (applyOps [BufOp.save 0, BufOp.save 1]) 1 := by
  decide

/-- Witness for `fetchBatch_exactly_unsent` at a concrete operation
sequence: save three records, mark the second sent, fetch with limit
10. -/
theorem fetchBatch_exactly_unsent_witness :
    countUnsent (applyOps [BufOp.save 5, BufOp.save 6, BufOp.save 7, BufOp.mark [2]]) ≤ 10
    ∧ ((∀ r, r ∈ fetchBatch (applyOps [BufOp.save 5, BufOp.save 6, BufOp.save 7, BufOp.mark [2]]) 10 ↔
        (r ∈ (applyOps [BufOp.save 5, BufOp.save 6, BufOp.save 7, BufOp.mark [2]]).rows ∧ r.sent = false))
    ∧ ((fetchBatch (applyOps [BufOp.save 5, BufOp.save 6, BufOp.save 7, BufOp.mark [2]]) 10).map (·.id)).Pairwise (· < ·)) :=
  ⟨by decide, fetchBatch_exactly_unsent _ 10 (by decide)⟩

theorem recordIds_sub_batchIds {α β : Type} (transform : BufRecord α → Option β)
    (rows : List (BufRecord α)) :
    ∀ i ∈ (rows.filter (fun r => (transform r).isSome)).map (·.id),
      i ∈ rows.map (·.id) := by
  intro i hi
  simp only [List.mem_map] at hi ⊢
  obtain ⟨r, hr, rfl⟩ := hi
  exact ⟨r, List.mem_of_mem_filter hr, rfl⟩

/-- Claim C1: one sender cycle, on a non-empty fetched batch whose rows
all transform, is atomic: if delivery succeeds every fetched id is
marked sent and the failure counter resets to 0; if delivery fails the
database is untouched (no id marked) and the counter grows by exactly
one. -/
theorem processBatch_batch_atomicity {α β : Type}
    (transform : BufRecord α → Option β) (cfg : SenderConfig) (sendOk : Bool)
    (s : SenderState α)
    (hne : fetchBatch s.db cfg.maxRecords ≠ [])
    (hall : ∀ r ∈ fetchBatch s.db cfg.maxRecords, (transform r).isSome) :
    (sendOk = true →
      (processBatch transform cfg sendOk s).1 = true
      ∧ (processBatch transform cfg sendOk s).2.failures = 0
      ∧ (∀ r ∈ fetchBatch s.db cfg.maxRecords,
          { r with sent := true } ∈ (processBatch transform cfg sendOk s).2.db.rows)
      ∧ (∀ r ∈ s.db.rows,
          r.id ∉ (fetchBatch s.db cfg.maxRecords).map (·.id) →
          r ∈ (processBatch transform cfg sendOk s).2.db.rows))
    ∧ (sendOk = false →
      (processBatch transform cfg sendOk s).1 = false
      ∧ (processBatch transform cfg sendOk s).2.db = s.db
      ∧ (processBatch transform cfg sendOk s).2.failures = s.failures + 1) := by
  have hempty : (fetchBatch s.db cfg.maxRecords).isEmpty = false := by
    simpa [List.isEmpty_iff] using hne
  have hfm : ((fetchBatch s.db cfg.maxRecords).filterMap transform).isEmpty = false := by
    obtain ⟨r, hr⟩ := List.exists_mem_of_ne_nil _ hne
    obtain ⟨b, hb⟩ := Option.isSome_iff_exists.mp (hall r hr)
    have hmem : b ∈ (fetchBatch s.db cfg.maxRecords).filterMap transform :=
      List.mem_filterMap.mpr ⟨r, hr, hb⟩
    cases hcase : (fetchBatch s.db cfg.maxRecords).filterMap transform with
    | nil => rw [hcase] at hmem; simp at hmem
    | cons x xs => simp
  constructor
  · rintro rfl
    simp only [processBatch, hempty, hfm, Bool.false_eq_true, if_false, if_true]
    refine ⟨trivial, trivial, ?_, ?_⟩
    · intro r hr
      have hmem : r ∈ s.db.rows := mem_rows_of_mem_fetchBatch hr
      have hid : r.id ∈ ((fetchBatch s.db cfg.maxRecords).filter
          (fun r => (transform r).isSome)).map (·.id) :=
        List.mem_map_of_mem _ (List.mem_filter.mpr ⟨hr, hall r hr⟩)
      have := List.mem_map_of_mem
        (fun r => if r.id ∈ ((fetchBatch s.db cfg.maxRecords).filter
            (fun r => (transform r).isSome)).map (·.id)
          then { r with sent := true } else r) hmem
      simpa [markSent, hid] using this
    · intro r hr hnid
      have hnid' : r.id ∉ ((fetchBatch s.db cfg.maxRecords).filter
          (fun r => (transform r).isSome)).map (·.id) :=
        fun hmem => hnid (recordIds_sub_batchIds transform _ _ hmem)
      have := List.mem_map_of_mem
        (fun r => if r.id ∈ ((fetchBatch s.db cfg.maxRecords).filter
            (fun r => (transform r).isSome)).map (·.id)
          then { r with sent := true } else r) hr
      simpa [markSent, hnid'] using this
  · rintro rfl
    simp only [processBatch, hempty, hfm, Bool.false_eq_true, if_false]
    exact ⟨trivial, trivial, trivial⟩

/-- Witness for `processBatch_batch_atomicity`: one unsent row,
transform succeeds, delivery succeeds. -/
theorem processBatch_batch_atomicity_witness :
    (fetchBatch (⟨⟨[⟨1, 7, false⟩], 2⟩, 0⟩ : SenderState Nat).db 1 ≠ [])
    ∧ (∀ r ∈ fetchBatch (⟨⟨[⟨1, 7, false⟩], 2⟩, 0⟩ : SenderState Nat).db 1,
        ((fun r : BufRecord Nat => some r.payload) r).isSome)
    ∧ ((true = true →
      (processBatch (fun r : BufRecord Nat => some r.payload) ⟨1, 60, 3600⟩ true ⟨⟨[⟨1, 7, false⟩], 2⟩, 0⟩).1 = true
      ∧ (processBatch (fun r : BufRecord Nat => some r.payload) ⟨1, 60, 3600⟩ true ⟨⟨[⟨1, 7, false⟩], 2⟩, 0⟩).2.failures = 0
      ∧ (∀ r ∈ fetchBatch (⟨⟨[⟨1, 7, false⟩], 2⟩, 0⟩ : SenderState Nat).db 1,
          { r with sent := true } ∈ (processBatch (fun r : BufRecord Nat => some r.payload) ⟨1, 60, 3600⟩ true ⟨⟨[⟨1, 7, false⟩], 2⟩, 0⟩).2.db.rows)
      ∧ (∀ r ∈ (⟨⟨[⟨1, 7, false⟩], 2⟩, 0⟩ : SenderState Nat).db.rows,
          r.id ∉ (fetchBatch (⟨⟨[⟨1, 7, false⟩], 2⟩, 0⟩ : SenderState Nat).db 1).map (·.id) →
          r ∈ (processBatch (fun r : BufRecord Nat => some r.payload) ⟨1, 60, 3600⟩ true ⟨⟨[⟨1, 7, false⟩], 2⟩, 0⟩).2.db.rows))
    ∧ (true = false →
      (processBatch (fun r : BufRecord Nat => some r.payload) ⟨1, 60, 3600⟩ true ⟨⟨[⟨1, 7, false⟩], 2⟩, 0⟩).1 = false
      ∧ (processBatch (fun r : BufRecord Nat => some r.payload) ⟨1, 60, 3600⟩ true ⟨⟨[⟨1, 7, false⟩], 2⟩, 0⟩).2.db = (⟨⟨[⟨1, 7, false⟩], 2⟩, 0⟩ : SenderState Nat).db
      ∧ (processBatch (fun r : BufRecord Nat => some r.payload) ⟨1, 60, 3600⟩ true ⟨⟨[⟨1, 7, false⟩], 2⟩, 0⟩).2.failures = (⟨⟨[⟨1, 7, false⟩], 2⟩, 0⟩ : SenderState Nat).failures + 1)) :=
  ⟨by decide, by decide,
   processBatch_batch_atomicity (fun r => some r.payload) ⟨1, 60, 3600⟩ true
     ⟨⟨[⟨1, 7, false⟩], 2⟩, 0⟩ (by decide) (by decide)⟩

theorem processBatch_aux {α β : Type} (transform : BufRecord α → Option β)
    (cfg : SenderConfig) (s : SenderState α) (r : BufRecord α)
    (hr : r ∈ fetchBatch s.db cfg.maxRecords) (hsome : (transform r).isSome) :
    (fetchBatch s.db cfg.maxRecords).isEmpty = false
    ∧ ((fetchBatch s.db cfg.maxRecords).filterMap transform).isEmpty = false := by
  constructor
  · cases hcase : fetchBatch s.db cfg.maxRecords with
    | nil => rw [hcase] at hr; simp at hr
    | cons x xs => simp
  · obtain ⟨b, hb⟩ := Option.isSome_iff_exists.mp hsome
    have hmem : b ∈ (fetchBatch s.db cfg.maxRecords).filterMap transform :=
      List.mem_filterMap.mpr ⟨r, hr, hb⟩
    cases hcase : (fetchBatch s.db cfg.maxRecords).filterMap transform with
    | nil => rw [hcase] at hmem; simp at hmem
    | cons x xs => simp

theorem processBatch_fail_eq {α β : Type} (transform : BufRecord α → Option β)
    (cfg : SenderConfig) (s : SenderState α)
    (hrow : ∃ r ∈ fetchBatch s.db cfg.maxRecords, (transform r).isSome) :
    processBatch transform cfg false s = (false, ⟨s.db, s.failures + 1⟩) := by
  obtain ⟨r, hr, hsome⟩ := hrow
  have hne : fetchBatch s.db cfg.maxRecords ≠ [] := List.ne_nil_of_mem hr
  have h := processBatch_aux transform cfg s r hr hsome
  simp only [processBatch, h.1, h.2, Bool.false_eq_true, if_false]

theorem processBatch_success_resets {α β : Type} (transform : BufRecord α → Option β)
    (cfg : SenderConfig) (s : SenderState α)
    (hrow : ∃ r ∈ fetchBatch s.db cfg.maxRecords, (transform r).isSome) :
    (processBatch transform cfg true s).2.failures = 0 := by
  obtain ⟨r, hr, hsome⟩ := hrow
  have h := processBatch_aux transform cfg s r hr hsome
  simp only [processBatch, h.1, h.2, Bool.false_eq_true, if_false, if_true]

/-- Claim C5: starting from a zero failure counter with a deliverable
batch pending, after `N` consecutive failed cycles the computed backoff
delay is `min(base * 2^N, cap)`, and one successful cycle brings the
computed delay back to `base * 2^0`. -/
theorem backoff_growth_and_reset {α β : Type} (transform : BufRecord α → Option β)
    (cfg : SenderConfig) (s₀ : SenderState α) (N : Nat)
    (hN : 1 ≤ N) (h0 : s₀.failures = 0)
    (hrow : ∃ r ∈ fetchBatch s₀.db cfg.maxRecords, (transform r).isSome)
    (hbc : cfg.retryBackoffBase ≤ cfg.maxBackoff) :
    calculateBackoff cfg
        ((fun s => (processBatch transform cfg false s).2)^[N] s₀).failures
      = min (cfg.retryBackoffBase * 2 ^ N) cfg.maxBackoff
    ∧ calculateBackoff cfg
        ((processBatch transform cfg true
          ((fun s => (processBatch transform cfg false s).2)^[N] s₀)).2).failures
      = cfg.retryBackoffBase * 2 ^ 0 := by
  have hiter : ∀ k, (fun s => (processBatch transform cfg false s).2)^[k] s₀
      = ⟨s₀.db, s₀.failures + k⟩ := by
    intro k
    induction k with
    | zero => simp
    | succ k ih =>
        rw [Function.iterate_succ_apply', ih,
          processBatch_fail_eq transform cfg ⟨s₀.db, s₀.failures + k⟩ hrow]
        simp [Nat.add_assoc]
  constructor
  · rw [hiter N, calculateBackoff]
    simp [h0]
  · rw [hiter N,
      processBatch_success_resets transform cfg ⟨s₀.db, s₀.failures + N⟩ hrow,
      calculateBackoff]
    simpa using hbc

/-- Witness for `backoff_growth_and_reset`: one pending row, `N = 2`,
base 60, cap 3600. -/
theorem backoff_growth_and_reset_witness :
    (1 ≤ 2 ∧ (⟨⟨[⟨1, 7, false⟩], 2⟩, 0⟩ : SenderState Nat).failures = 0
     ∧ (∃ r ∈ fetchBatch (⟨⟨[⟨1, 7, false⟩], 2⟩, 0⟩ : SenderState Nat).db 1,
          ((fun r : BufRecord Nat => some r.payload) r).isSome)
     ∧ 60 ≤ 3600)
    ∧ (calculateBackoff ⟨1, 60, 3600⟩
        ((fun s => (processBatch (fun r : BufRecord Nat => some r.payload) ⟨1, 60, 3600⟩ false s).2)^[2]
          ⟨⟨[⟨1, 7, false⟩], 2⟩, 0⟩).failures
        = min (60 * 2 ^ 2) 3600
      ∧ calculateBackoff ⟨1, 60, 3600⟩
          ((processBatch (fun r : BufRecord Nat => some r.payload) ⟨1, 60, 3600⟩ true
            ((fun s => (processBatch (fun r : BufRecord Nat => some r.payload) ⟨1, 60, 3600⟩ false s).2)^[2]
              ⟨⟨[⟨1, 7, false⟩], 2⟩, 0⟩)).2).failures
        = 60 * 2 ^ 0) :=
  ⟨⟨by decide, by decide, by decide, by decide⟩,
   backoff_growth_and_reset (fun r : BufRecord Nat => some r.payload) ⟨1, 60, 3600⟩
     ⟨⟨[⟨1, 7, false⟩], 2⟩, 0⟩ 2 (by decide) (by decide) (by decide) (by decide)⟩

theorem mem_take_of_sublist {γ : Type} {a : γ} :
    ∀ {l' l : List γ}, List.Sublist l' l → l.Nodup → a ∈ l' →
      ∀ n, a ∈ l.take n → a ∈ l'.take n := by
  intro l' l h
  induction h with
  | slnil => intro _ h' _ _; simp at h'
  | @cons l' l b hsub ih =>
      intro hnd ha' n htake
      cases n with
      | zero => simp at htake
      | succ m =>
          rw [List.take_succ_cons] at htake
          rcases List.mem_cons.mp htake with rfl | hmem
          · exact absurd (hsub.subset ha') ((List.nodup_cons.mp hnd).1)
          · have hm := ih (List.nodup_cons.mp hnd).2 ha' m hmem
            have hsubset : l'.take m ⊆ l'.take (m + 1) := by
              rw [List.take_succ]
              exact fun x hx => List.mem_append_left _ hx
            exact hsubset hm
  | @cons₂ l' l b hsub ih =>
      intro hnd ha' n htake
      cases n with
      | zero => simp at htake
      | succ m =>
          rw [List.take_succ_cons] at htake ⊢
          rcases List.mem_cons.mp htake with rfl | hmem
          · exact List.mem_cons_self _ _
          · rcases List.mem_cons.mp ha' with rfl | ha''
            · exact List.mem_cons_self _ _
            · exact List.mem_cons_of_mem _ (ih (List.nodup_cons.mp hnd).2 ha'' m hmem)

theorem filter_map_sublist_filter {γ : Type} (p : γ → Bool) (f : γ → γ)
    (hf : ∀ x, f x = x ∨ p (f x) = false) :
    ∀ l : List γ, List.Sublist ((l.map f).filter p) (l.filter p) := by
  intro l
  induction l with
  | nil => simp
  | cons x xs ih =>
      simp only [List.map_cons, List.filter_cons]
      rcases hf x with hfx | hfx
      · rw [hfx]
        cases hpx : p x
        · simpa using ih
        · simpa using ih.cons₂ x
      · rw [hfx]
        cases hpx : p x
        · simpa using ih
        · simpa using ih.cons x

theorem ids_nodup_of_wf {α : Type} {db : DB α} (hwf : db.wf) :
    (db.rows.map (·.id)).Nodup :=
  (List.pairwise_map.mpr hwf.1).imp ne_of_lt

theorem rows_nodup_of_wf {α : Type} {db : DB α} (hwf : db.wf) :
    db.rows.Nodup :=
  List.Nodup.of_map _ (ids_nodup_of_wf hwf)

theorem eq_of_mem_rows_of_id_eq {α : Type} {db : DB α} (hwf : db.wf)
    {x y : BufRecord α} (hx : x ∈ db.rows) (hy : y ∈ db.rows)
    (h : x.id = y.id) : x = y :=
  List.inj_on_of_nodup_map (ids_nodup_of_wf hwf) hx hy h

theorem processBatch_preserves_failed {α β : Type}
    (transform : BufRecord α → Option β) (cfg : SenderConfig)
    (s : SenderState α) (r : BufRecord α) (ok : Bool)
    (hwf : s.db.wf) (hr : r ∈ fetchBatch s.db cfg.maxRecords)
    (ht : transform r = none) :
    (processBatch transform cfg ok s).2.db.wf
    ∧ r ∈ fetchBatch (processBatch transform cfg ok s).2.db cfg.maxRecords := by
  have hner : (fetchBatch s.db cfg.maxRecords).isEmpty = false := by
    cases hcase : fetchBatch s.db cfg.maxRecords with
    | nil => rw [hcase] at hr; simp at hr
    | cons x xs => simp
  by_cases hfm : ((fetchBatch s.db cfg.maxRecords).filterMap transform).isEmpty
  · simp only [processBatch, hner, hfm, Bool.false_eq_true, if_false, if_true]
    exact ⟨hwf, hr⟩
  · rw [Bool.not_eq_true] at hfm
    cases ok with
    | false =>
        simp only [processBatch, hner, hfm, Bool.false_eq_true, if_false]
        exact ⟨hwf, hr⟩
    | true =>
        simp only [processBatch, hner, hfm, Bool.false_eq_true, if_false, if_true]
        refine ⟨wf_markSent hwf _, ?_⟩
        have hrid : r.id ∉ ((fetchBatch s.db cfg.maxRecords).filter
            (fun x => (transform x).isSome)).map (·.id) := by
          intro hmem
          rw [List.mem_map] at hmem
          obtain ⟨x, hx, hxid⟩ := hmem
          have hxr : x = r := eq_of_mem_rows_of_id_eq hwf
            (mem_rows_of_mem_fetchBatch (List.mem_of_mem_filter hx))
            (mem_rows_of_mem_fetchBatch hr) hxid
          have hxs := List.of_mem_filter hx
          rw [hxr, ht] at hxs
          simp at hxs
        have hsub := filter_map_sublist_filter (fun x : BufRecord α => !x.sent)
          (fun x => if x.id ∈ ((fetchBatch s.db cfg.maxRecords).filter
              (fun y => (transform y).isSome)).map (·.id)
            then { x with sent := true } else x)
          (by
            intro x
            by_cases hx : x.id ∈ ((fetchBatch s.db cfg.maxRecords).filter
                (fun y => (transform y).isSome)).map (·.id)
            · right; simp [hx]
            · left; simp [hx])
          s.db.rows
        have hmem' : r ∈ ((markSent s.db
            (((fetchBatch s.db cfg.maxRecords).filter
              (fun y => (transform y).isSome)).map (·.id))).rows.filter
            (fun x => !x.sent)) := by
          rw [List.mem_filter]
          constructor
          · have := List.mem_map_of_mem
              (fun x => if x.id ∈ ((fetchBatch s.db cfg.maxRecords).filter
                  (fun y => (transform y).isSome)).map (·.id)
                then { x with sent := true } else x)
              (mem_rows_of_mem_fetchBatch hr)
            simpa [markSent, hrid] using this
          · simpa using sent_false_of_mem_fetchBatch hr
        have hnodup : (s.db.rows.filter (fun x => !x.sent)).Nodup :=
          (rows_nodup_of_wf hwf).filter _
        exact mem_take_of_sublist (by simpa [markSent] using hsub) hnodup hmem'
          cfg.maxRecords hr

/-- Claim C8 (implicit): a fetched row whose `transform_for_send`
raises is excluded from the batch: over any sequence of further sender
cycles (whatever each delivery outcome), it stays in the table with
`sent = 0` and is in the fetched batch of every subsequent cycle; and a
cycle in which every fetched row fails to transform reports success and
changes nothing. -/
theorem failed_transform_stays_buffered {α β : Type}
    (transform : BufRecord α → Option β) (cfg : SenderConfig)
    (s₀ : SenderState α) (r : BufRecord α)
    (hwf : s₀.db.wf)
    (hr : r ∈ fetchBatch s₀.db cfg.maxRecords)
    (ht : transform r = none) :
    (∀ oks : List Bool,
      r ∈ (runBatches transform cfg oks s₀).db.rows
      ∧ r.sent = false
      ∧ r ∈ fetchBatch (runBatches transform cfg oks s₀).db cfg.maxRecords)
    ∧ (∀ (ok : Bool) (s : SenderState α),
        (∀ x ∈ fetchBatch s.db cfg.maxRecords, transform x = none) →
        processBatch transform cfg ok s = (true, s)) := by
  constructor
  · have main : ∀ (oks : List Bool) (s : SenderState α), s.db.wf →
        r ∈ fetchBatch s.db cfg.maxRecords →
        (runBatches transform cfg oks s).db.wf
        ∧ r ∈ fetchBatch (runBatches transform cfg oks s).db cfg.maxRecords := by
      intro oks
      induction oks with
      | nil => intro s hwf hr; exact ⟨hwf, hr⟩
      | cons ok oks ih =>
          intro s hwf hr
          have hstep := processBatch_preserves_failed transform cfg s r ok hwf hr ht
          exact ih _ hstep.1 hstep.2
    intro oks
    have h := main oks s₀ hwf hr
    exact ⟨mem_rows_of_mem_fetchBatch h.2, sent_false_of_mem_fetchBatch hr, h.2⟩
  · intro ok s hall
    by_cases hrows : (fetchBatch s.db cfg.maxRecords).isEmpty
    · simp only [processBatch, hrows, if_true]
    · have hfm : ((fetchBatch s.db cfg.maxRecords).filterMap transform).isEmpty := by
        rw [List.isEmpty_iff]
        rw [List.filterMap_eq_nil_iff]
        exact hall
      rw [Bool.not_eq_true] at hrows
      simp only [processBatch, hrows, hfm, Bool.false_eq_true, if_false, if_true]

/-- Witness for `failed_transform_stays_buffered`: one unsent row whose
transform always fails. -/
theorem failed_transform_stays_buffered_witness :
    ((⟨⟨[⟨1, 7, false⟩], 2⟩, 0⟩ : SenderState Nat).db.wf
     ∧ (⟨1, 7, false⟩ : BufRecord Nat) ∈
         fetchBatch (⟨⟨[⟨1, 7, false⟩], 2⟩, 0⟩ : SenderState Nat).db 1
     ∧ (fun _ : BufRecord Nat => (none : Option Nat)) ⟨1, 7, false⟩ = none)
    ∧ ((∀ oks : List Bool,
        (⟨1, 7, false⟩ : BufRecord Nat) ∈
          (runBatches (fun _ : BufRecord Nat => (none : Option Nat)) ⟨1, 60, 3600⟩ oks
            ⟨⟨[⟨1, 7, false⟩], 2⟩, 0⟩).db.rows
        ∧ (⟨1, 7, false⟩ : BufRecord Nat).sent = false
        ∧ (⟨1, 7, false⟩ : BufRecord Nat) ∈
            fetchBatch (runBatches (fun _ : BufRecord Nat => (none : Option Nat)) ⟨1, 60, 3600⟩ oks
              ⟨⟨[⟨1, 7, false⟩], 2⟩, 0⟩).db 1)
      ∧ (∀ (ok : Bool) (s : SenderState Nat),
          (∀ x ∈ fetchBatch s.db 1, (fun _ : BufRecord Nat => (none : Option Nat)) x = none) →
          processBatch (fun _ : BufRecord Nat => (none : Option Nat)) ⟨1, 60, 3600⟩ ok s = (true, s))) :=
  ⟨⟨by decide, by decide, rfl⟩,
   failed_transform_stays_buffered (fun _ => none) ⟨1, 60, 3600⟩
     ⟨⟨[⟨1, 7, false⟩], 2⟩, 0⟩ ⟨1, 7, false⟩ (by decide) (by decide) rfl⟩

end SensorHub

namespace FirefighterServer

theorem appendReading_startTime (w : SensorWindow) (t : String) (r : Reading) :
    (appendReading w t r).startTime = w.startTime := by
  unfold appendReading
  split
  · rfl
  · split <;> rfl

theorem appendReading_other (w : SensorWindow) (t : String) (r : Reading)
    (hfoot : t ≠ "foot") (haccel : t ≠ "accel") :
    appendReading w t r = w := by
  simp [appendReading, hfoot, haccel]

theorem lookup_append_self (m : List (String × SensorWindow)) (k : String)
    (w : SensorWindow) (h : m.lookup k = none) :
    (m ++ [(k, w)]).lookup k = some w := by
  induction m with
  | nil => simp [List.lookup]
  | cons a m ih =>
      rw [List.lookup_cons] at h
      rw [List.cons_append, List.lookup_cons]
      cases hka : (k == a.1) with
      | true => rw [hka] at h; simp at h
      | false => rw [hka] at h; exact ih h

theorem lookup_updateWindow (m : List (String × SensorWindow)) (k : String)
    (w : SensorWindow) (h : (m.lookup k).isSome) :
    (updateWindow m k w).lookup k = some w := by
  induction m with
  | nil => simp [List.lookup] at h
  | cons a m ih =>
      rw [List.lookup_cons] at h
      by_cases hka : a.1 = k
      · simp [updateWindow, List.lookup_cons, hka]
      · have hk : (k == a.1) = false := by
          simp [BEq.beq]
          exact fun he => hka he.symm
        rw [hk] at h
        simp only [updateWindow, List.map_cons, if_neg hka]
        rw [List.lookup_cons, hk]
        exact ih h

theorem lookup_removeWindow (m : List (String × SensorWindow)) (k : String) :
    (removeWindow m k).lookup k = none := by
  induction m with
  | nil => simp [removeWindow]
  | cons a m ih =>
      by_cases hka : a.1 = k
      · simpa [removeWindow, hka] using ih
      · simp only [removeWindow, List.filter_cons]
        have : (decide (a.1 ≠ k)) = true := by simpa using hka
        rw [this]
        simp only [if_true]
        rw [List.lookup_cons]
        have hk : (k == a.1) = false := by
          simp [BEq.beq]
          exact fun he => hka he.symm
        rw [hk]
        exact ih

theorem addReading_eq_some (cfg : QdrantConfig) (st : VState)
    (sid sensorType : String) (r : Reading) (now : Int) (freshId : String)
    (hsid : sid ≠ "") (w : SensorWindow)
    (hcase : st.windows.lookup sid = some w) :
    addReading cfg st sid sensorType r now freshId =
      if cfg.windowSizeMs ≤ timestampMs r now - w.startTime then
        (some freshId, ⟨removeWindow st.windows sid,
          st.index ++ [mkPoint freshId
            { appendReading w sensorType r with endTime := timestampMs r now }]⟩)
      else
        (none, ⟨updateWindow st.windows sid
          { appendReading w sensorType r with endTime := timestampMs r now },
          st.index⟩) := by
  simp only [addReading, if_neg hsid, hcase, Option.isSome_some, if_true, storeWindow]
  rw [show ({ appendReading w sensorType r with endTime := timestampMs r now }
      : SensorWindow).startTime = w.startTime from appendReading_startTime w sensorType r]

theorem addReading_eq_none (cfg : QdrantConfig) (st : VState)
    (sid sensorType : String) (r : Reading) (now : Int) (freshId : String)
    (hsid : sid ≠ "") (hcase : st.windows.lookup sid = none) :
    addReading cfg st sid sensorType r now freshId =
      if cfg.windowSizeMs ≤ (0 : ℤ) then
        (some freshId,
         ⟨removeWindow (st.windows ++ [(sid, newWindow sid r (timestampMs r now))]) sid,
          st.index ++ [mkPoint freshId
            { appendReading (newWindow sid r (timestampMs r now)) sensorType r
              with endTime := timestampMs r now }]⟩)
      else
        (none,
         ⟨updateWindow (st.windows ++ [(sid, newWindow sid r (timestampMs r now))]) sid
            { appendReading (newWindow sid r (timestampMs r now)) sensorType r
              with endTime := timestampMs r now },
          st.index⟩) := by
  simp only [addReading, if_neg hsid, hcase, Option.isSome_none, Bool.false_eq_true,
    if_false, storeWindow]
  rw [show ({ appendReading (newWindow sid r (timestampMs r now)) sensorType r
        with endTime := timestampMs r now } : SensorWindow).startTime
      = (newWindow sid r (timestampMs r now)).startTime
    from appendReading_startTime (newWindow sid r (timestampMs r now)) sensorType r]
  rw [show (newWindow sid r (timestampMs r now)).startTime = timestampMs r now from rfl]
  rw [sub_self]

/-- Claim C3: `add_reading` with a non-empty session id returns a point
id exactly when the recorded reading pushes the window span to the
configured size; then the window is finalized (one point is appended to
the index under the generated id) and the session's entry is removed;
otherwise it returns `None` and the window stays active with `end_time`
advanced to the reading's timestamp.  The window's start time is the
active window's when one exists, else this reading's timestamp. -/
theorem addReading_finalize_iff (cfg : QdrantConfig) (st : VState)
    (sid sensorType : String) (r : Reading) (now : Int) (freshId : String)
    (hsid : sid ≠ "") :
    ((addReading cfg st sid sensorType r now freshId).1.isSome ↔
      cfg.windowSizeMs ≤ timestampMs r now -
        ((st.windows.lookup sid).map (·.startTime)).getD (timestampMs r now))
    ∧ (cfg.windowSizeMs ≤ timestampMs r now -
        ((st.windows.lookup sid).map (·.startTime)).getD (timestampMs r now) →
      (addReading cfg st sid sensorType r now freshId).1 = some freshId
      ∧ ((addReading cfg st sid sensorType r now freshId).2.windows.lookup sid) = none
      ∧ ∃ pt, (addReading cfg st sid sensorType r now freshId).2.index = st.index ++ [pt]
          ∧ pt.id = freshId)
    ∧ (¬ (cfg.windowSizeMs ≤ timestampMs r now -
        ((st.windows.lookup sid).map (·.startTime)).getD (timestampMs r now)) →
      (addReading cfg st sid sensorType r now freshId).1 = none
      ∧ (addReading cfg st sid sensorType r now freshId).2.index = st.index
      ∧ ∃ w', (addReading cfg st sid sensorType r now freshId).2.windows.lookup sid = some w'
          ∧ w'.endTime = timestampMs r now
          ∧ w'.startTime =
              ((st.windows.lookup sid).map (·.startTime)).getD (timestampMs r now)) := by
  cases hcase : st.windows.lookup sid with
  | none =>
      rw [addReading_eq_none cfg st sid sensorType r now freshId hsid hcase]
      simp only [hcase, Option.map_none', Option.getD_none, sub_self]
      by_cases hth : cfg.windowSizeMs ≤ (0 : ℤ)
      · rw [if_pos hth]
        refine ⟨by simp [hth], fun _ => ⟨rfl, lookup_removeWindow _ _,
          ⟨mkPoint freshId _, rfl, rfl⟩⟩, fun h => absurd hth h⟩
      · rw [if_neg hth]
        refine ⟨by simp [hth], fun h => absurd h hth, fun _ => ⟨rfl, rfl, ?_⟩⟩
        refine ⟨{ appendReading (newWindow sid r (timestampMs r now)) sensorType r
            with endTime := timestampMs r now }, ?_, rfl, ?_⟩
        · exact lookup_updateWindow _ _ _ (by
            rw [lookup_append_self st.windows sid _ hcase]; rfl)
        · simpa using appendReading_startTime (newWindow sid r (timestampMs r now)) sensorType r
  | some w =>
      rw [addReading_eq_some cfg st sid sensorType r now freshId hsid w hcase]
      simp only [hcase, Option.map_some', Option.getD_some]
      by_cases hth : cfg.windowSizeMs ≤ timestampMs r now - w.startTime
      · rw [if_pos hth]
        refine ⟨by simp [hth], fun _ => ⟨rfl, lookup_removeWindow _ _,
          ⟨mkPoint freshId _, rfl, rfl⟩⟩, fun h => absurd hth h⟩
      · rw [if_neg hth]
        refine ⟨by simp [hth], fun h => absurd h hth, fun _ => ⟨rfl, rfl, ?_⟩⟩
        refine ⟨{ appendReading w sensorType r with endTime := timestampMs r now },
            ?_, rfl, ?_⟩
        · exact lookup_updateWindow _ _ _ (by rw [hcase]; rfl)
        · simpa using appendReading_startTime w sensorType r

/-- Witness for `addReading_finalize_iff`: a session with no active
window and a parseable timestamp. -/
theorem addReading_finalize_iff_witness :
    (("s1" : String) ≠ "")
    ∧ (((addReading ⟨270, 500⟩ ⟨[], []⟩ "s1" "foot"
          { Reading.blank with timestamp := some 1000 } 0 "pt-1").1.isSome ↔
        (500 : Int) ≤ timestampMs { Reading.blank with timestamp := some 1000 } 0 -
          ((([] : List (String × SensorWindow)).lookup "s1").map (·.startTime)).getD
            (timestampMs { Reading.blank with timestamp := some 1000 } 0))
      ∧ ((500 : Int) ≤ timestampMs { Reading.blank with timestamp := some 1000 } 0 -
          ((([] : List (String × SensorWindow)).lookup "s1").map (·.startTime)).getD
            (timestampMs { Reading.blank with timestamp := some 1000 } 0) →
        (addReading ⟨270, 500⟩ ⟨[], []⟩ "s1" "foot"
          { Reading.blank with timestamp := some 1000 } 0 "pt-1").1 = some "pt-1"
        ∧ ((addReading ⟨270, 500⟩ ⟨[], []⟩ "s1" "foot"
            { Reading.blank with timestamp := some 1000 } 0 "pt-1").2.windows.lookup "s1") = none
        ∧ ∃ pt, (addReading ⟨270, 500⟩ ⟨[], []⟩ "s1" "foot"
            { Reading.blank with timestamp := some 1000 } 0 "pt-1").2.index = [] ++ [pt]
            ∧ pt.id = "pt-1")
      ∧ (¬ ((500 : Int) ≤ timestampMs { Reading.blank with timestamp := some 1000 } 0 -
          ((([] : List (String × SensorWindow)).lookup "s1").map (·.startTime)).getD
            (timestampMs { Reading.blank with timestamp := some 1000 } 0)) →
        (addReading ⟨270, 500⟩ ⟨[], []⟩ "s1" "foot"
          { Reading.blank with timestamp := some 1000 } 0 "pt-1").1 = none
        ∧ (addReading ⟨270, 500⟩ ⟨[], []⟩ "s1" "foot"
            { Reading.blank with timestamp := some 1000 } 0 "pt-1").2.index = []
        ∧ ∃ w', (addReading ⟨270, 500⟩ ⟨[], []⟩ "s1" "foot"
              { Reading.blank with timestamp := some 1000 } 0 "pt-1").2.windows.lookup "s1" = some w'
            ∧ w'.endTime = timestampMs { Reading.blank with timestamp := some 1000 } 0
            ∧ w'.startTime =
                ((([] : List (String × SensorWindow)).lookup "s1").map (·.startTime)).getD
                  (timestampMs { Reading.blank with timestamp := some 1000 } 0))) :=
  ⟨by decide,
   addReading_finalize_iff ⟨270, 500⟩ ⟨[], []⟩ "s1" "foot"
     { Reading.blank with timestamp := some 1000 } 0 "pt-1" (by decide)⟩

/-- Claim C9 (implicit): a reading of a sensor type that is neither
`"foot"` nor `"accel"`, added to a session with an active window, is
appended to neither stream list, but still advances the window's
`end_time` to its timestamp — so it can by itself cross the window-size
threshold, finalizing a window whose stream lists (hence per-stream
counts) are unchanged. -/
theorem addReading_unknown_type (cfg : QdrantConfig) (st : VState)
    (sid sensorType : String) (r : Reading) (now : Int) (freshId : String)
    (w : SensorWindow)
    (hsid : sid ≠ "") (hcase : st.windows.lookup sid = some w)
    (hfoot : sensorType ≠ "foot") (haccel : sensorType ≠ "accel") :
    ((addReading cfg st sid sensorType r now freshId).1.isSome ↔
      cfg.windowSizeMs ≤ timestampMs r now - w.startTime)
    ∧ (¬ cfg.windowSizeMs ≤ timestampMs r now - w.startTime →
        (addReading cfg st sid sensorType r now freshId).1 = none
        ∧ (addReading cfg st sid sensorType r now freshId).2.windows.lookup sid
            = some { w with endTime := timestampMs r now })
    ∧ (cfg.windowSizeMs ≤ timestampMs r now - w.startTime →
        (addReading cfg st sid sensorType r now freshId).1 = some freshId
        ∧ (addReading cfg st sid sensorType r now freshId).2.windows.lookup sid = none
        ∧ (addReading cfg st sid sensorType r now freshId).2.index
            = st.index ++ [mkPoint freshId { w with endTime := timestampMs r now }]) := by
  rw [addReading_eq_some cfg st sid sensorType r now freshId hsid w hcase,
    appendReading_other w sensorType r hfoot haccel]
  by_cases hth : cfg.windowSizeMs ≤ timestampMs r now - w.startTime
  · rw [if_pos hth]
    exact ⟨by simp [hth], fun h => absurd hth h,
      fun _ => ⟨rfl, lookup_removeWindow _ _, rfl⟩⟩
  · rw [if_neg hth]
    refine ⟨by simp [hth], fun _ => ⟨rfl, ?_⟩, fun h => absurd h hth⟩
    exact lookup_updateWindow _ _ _ (by rw [hcase]; rfl)

/-- Witness for `addReading_unknown_type`: an active window starting at
0, a `"gps"` reading at 600 ms with a 500 ms window size. -/
theorem addReading_unknown_type_witness :
    (("s1" : String) ≠ ""
     ∧ ([("s1", (⟨"s1", "dev", 0, 0, [], [], none⟩ : SensorWindow))].lookup "s1"
         = some (⟨"s1", "dev", 0, 0, [], [], none⟩ : SensorWindow))
     ∧ ("gps" : String) ≠ "foot" ∧ ("gps" : String) ≠ "accel")
    ∧ (((addReading ⟨270, 500⟩ ⟨[("s1", ⟨"s1", "dev", 0, 0, [], [], none⟩)], []⟩
          "s1" "gps" { Reading.blank with timestamp := some 600 } 0 "pt-9").1.isSome ↔
        (500 : Int) ≤ timestampMs { Reading.blank with timestamp := some 600 } 0 -
          (⟨"s1", "dev", 0, 0, [], [], none⟩ : SensorWindow).startTime)
      ∧ (¬ (500 : Int) ≤ timestampMs { Reading.blank with timestamp := some 600 } 0 -
          (⟨"s1", "dev", 0, 0, [], [], none⟩ : SensorWindow).startTime →
        (addReading ⟨270, 500⟩ ⟨[("s1", ⟨"s1", "dev", 0, 0, [], [], none⟩)], []⟩
          "s1" "gps" { Reading.blank with timestamp := some 600 } 0 "pt-9").1 = none
        ∧ (addReading ⟨270, 500⟩ ⟨[("s1", ⟨"s1", "dev", 0, 0, [], [], none⟩)], []⟩
            "s1" "gps" { Reading.blank with timestamp := some 600 } 0 "pt-9").2.windows.lookup "s1"
          = some { (⟨"s1", "dev", 0, 0, [], [], none⟩ : SensorWindow) with
              endTime := timestampMs { Reading.blank with timestamp := some 600 } 0 })
      ∧ ((500 : Int) ≤ timestampMs { Reading.blank with timestamp := some 600 } 0 -
          (⟨"s1", "dev", 0, 0, [], [], none⟩ : SensorWindow).startTime →
        (addReading ⟨270, 500⟩ ⟨[("s1", ⟨"s1", "dev", 0, 0, [], [], none⟩)], []⟩
          "s1" "gps" { Reading.blank with timestamp := some 600 } 0 "pt-9").1 = some "pt-9"
        ∧ (addReading ⟨270, 500⟩ ⟨[("s1", ⟨"s1", "dev", 0, 0, [], [], none⟩)], []⟩
            "s1" "gps" { Reading.blank with timestamp := some 600 } 0 "pt-9").2.windows.lookup "s1"
          = none
        ∧ (addReading ⟨270, 500⟩ ⟨[("s1", ⟨"s1", "dev", 0, 0, [], [], none⟩)], []⟩
            "s1" "gps" { Reading.blank with timestamp := some 600 } 0 "pt-9").2.index
          = [] ++ [mkPoint "pt-9" { (⟨"s1", "dev", 0, 0, [], [], none⟩ : SensorWindow) with
              endTime := timestampMs { Reading.blank with timestamp := some 600 } 0 }])) :=
  ⟨⟨by decide, by decide, by decide, by decide⟩,
   addReading_unknown_type ⟨270, 500⟩ ⟨[("s1", ⟨"s1", "dev", 0, 0, [], [], none⟩)], []⟩
     "s1" "gps" { Reading.blank with timestamp := some 600 } 0 "pt-9"
     ⟨"s1", "dev", 0, 0, [], [], none⟩ (by decide) (by decide) (by decide) (by decide)⟩

theorem normalizeVector_length (v : List ℚ) :
    (normalizeVector v).length = v.length := by
  simp only [normalizeVector]
  split <;> simp

theorem padLoop_length_ge (s t : Nat) : ∀ v : List ℚ, t ≤ (padLoop s t v).length := by
  have H : ∀ (n : Nat) (v : List ℚ), t - v.length ≤ n → t ≤ (padLoop s t v).length := by
    intro n
    induction n with
    | zero =>
        intro v hv
        rw [padLoop]
        split
        · omega
        · rename_i h
          omega
    | succ n ih =>
        intro v hv
        rw [padLoop]
        split
        · apply ih
          simp only [List.length_append, List.length_replicate]
          omega
        · rename_i h
          omega
  intro v
  exact H (t - v.length) v le_rfl

theorem padLoop_eq_append (s t : Nat) :
    ∀ (j : Nat) (v : List ℚ), v.length + (s + 1) * j = t →
      padLoop s t v = v ++ List.replicate ((s + 1) * j) 0 := by
  intro j
  induction j with
  | zero =>
      intro v hv
      rw [padLoop]
      rw [if_neg (by omega)]
      simp
  | succ j ih =>
      intro v hv
      rw [padLoop]
      rw [if_pos (by
        have : (s + 1) * (j + 1) = (s + 1) * j + (s + 1) := by ring
        omega)]
      rw [ih (v ++ List.replicate (s + 1) 0) (by
        simp only [List.length_append, List.length_replicate]
        have : (s + 1) * (j + 1) = (s + 1) + (s + 1) * j := by ring
        omega)]
      rw [List.append_assoc, ← List.replicate_add]
      have : s + 1 + (s + 1) * j = (s + 1) * (j + 1) := by ring
      rw [this]

/-- Claim C4: the encoder's output vector always has length exactly
270 (the 180 foot slots followed by the 90 inertial slots), whatever
the window holds. -/
theorem windowToVector_length (w : SensorWindow) :
    (windowToVector w).length = 270 := by
  unfold windowToVector
  rw [normalizeVector_length, List.length_append, List.length_take, List.length_take]
  have h1 := padLoop_length_ge 17 180
    (((takeLast w.footReadings 10).map footReadingToVector).flatten)
  have h2 := padLoop_length_ge 8 90
    (((takeLast w.accelReadings 10).map accelReadingToVector).flatten)
  omega

theorem footReadingToVector_length (r : Reading) :
    (footReadingToVector r).length = 18 := by
  simp only [footReadingToVector]
  split
  · rename_i h
    rw [List.length_take, List.length_append, List.length_replicate]
    omega
  · rename_i h
    rw [List.length_take]
    omega

theorem flatten_foot_length (l : List Reading) :
    ((l.map footReadingToVector).flatten).length = 18 * l.length := by
  induction l with
  | nil => simp
  | cons r l ih =>
      simp only [List.map_cons, List.flatten_cons, List.length_append,
        footReadingToVector_length, ih, List.length_cons]
      ring

theorem takeLast_of_length_le {α : Type} (l : List α) (n : Nat)
    (h : l.length ≤ n) : takeLast l n = l := by
  simp [takeLast, Nat.sub_eq_zero_of_le h]

theorem windowToVector_three_foot (w : SensorWindow)
    (h3 : w.footReadings.length = 3) (h0 : w.accelReadings = []) :
    windowToVector w
      = normalizeVector ((w.footReadings.map footReadingToVector).flatten
          ++ List.replicate 216 0) := by
  simp only [windowToVector]
  rw [takeLast_of_length_le w.footReadings 10 (by omega), h0]
  rw [show takeLast ([] : List Reading) 10 = [] from rfl]
  have hlen : ((w.footReadings.map footReadingToVector).flatten).length = 54 := by
    rw [flatten_foot_length, h3]
  rw [padLoop_eq_append 17 180 7 _ (by rw [hlen])]
  rw [show ((([] : List Reading).map accelReadingToVector).flatten) = [] from rfl]
  rw [padLoop_eq_append 8 90 10 [] (by simp)]
  rw [List.take_of_length_le (by
    rw [List.length_append, hlen, List.length_replicate])]
  rw [List.take_of_length_le (by simp)]
  rw [List.nil_append, List.append_assoc, ← List.replicate_add]

theorem normalizeVector_append_zeros (v : List ℚ) (k : Nat) :
    ∃ c : ℝ, 0 < c ∧
      normalizeVector (v ++ List.replicate k 0)
        = v.map (fun x => c * (Rat.cast x : ℝ)) ++ List.replicate k (0 : ℝ) := by
  simp only [normalizeVector]
  split
  · rename_i h
    refine ⟨1 / Real.sqrt ((List.map (fun x => x ^ 2)
        (List.map (fun x => (Rat.cast x : ℝ)) (v ++ List.replicate k 0))).sum), ?_, ?_⟩
    · positivity
    · rw [List.map_append, List.map_append, List.map_replicate, List.map_replicate,
        List.map_map]
      congr 1
      · apply List.map_congr_left
        intro x _
        simp only [Function.comp_apply]
        rw [one_div_mul_eq_div]
      · simp
  · rename_i h
    refine ⟨1, one_pos, ?_⟩
    rw [List.map_append, List.map_replicate]
    congr 1
    · apply List.map_congr_left
      intro x _
      rw [one_mul]
    · simp

/-- Claim C6 (amended): for a window with exactly 3 foot readings and
no inertial readings, the encoded vector is the 3 readings' 54
extracted values, all scaled by one positive factor (the L2
normalization), followed by 216 zeros — so the inertial segment (final
90 values) is entirely zero and the foot slots beyond 3 × 18 are zero.
(The original claim — the extracted values appear unscaled — is refuted
by `windowToVector_not_unscaled`.) -/
theorem windowToVector_three_foot_padding (w : SensorWindow)
    (h3 : w.footReadings.length = 3) (h0 : w.accelReadings = []) :
    ∃ c : ℝ, 0 < c ∧
      windowToVector w
        = ((w.footReadings.map footReadingToVector).flatten).map
            (fun x => c * (Rat.cast x : ℝ))
          ++ List.replicate 216 (0 : ℝ) := by
  rw [windowToVector_three_foot w h3 h0]
  exact normalizeVector_append_zeros _ 216

/-- The literal C6 claim fails: in `exampleWindow` the first extracted
value is 2 but the encoded vector's first entry is 1 (the vector is
L2-normalized), so the extracted values do not appear unscaled. -/
theorem windowToVector_not_unscaled :
    windowToVector exampleWindow ≠
      ((exampleWindow.footReadings.map footReadingToVector).flatten).map
        (fun x => (Rat.cast x : ℝ))
      ++ List.replicate 216 (0 : ℝ) := by
  have hflat : (exampleWindow.footReadings.map footReadingToVector).flatten
      = 2 :: List.replicate 53 0 := by decide
  have hL : windowToVector exampleWindow = (1 : ℝ) :: List.replicate 269 0 := by
    rw [windowToVector_three_foot exampleWindow (by decide) (by decide), hflat]
    rw [show ((2 : ℚ) :: List.replicate 53 0) ++ List.replicate 216 0
        = (2 : ℚ) :: List.replicate 269 0 by
      rw [List.cons_append, ← List.replicate_add]]
    simp only [normalizeVector, List.map_cons, List.map_replicate]
    have hsum : (((Rat.cast (2 : ℚ) : ℝ) ^ 2) ::
        List.replicate 269 ((Rat.cast (0 : ℚ) : ℝ) ^ 2)).sum = 4 := by
      rw [List.sum_cons, List.sum_replicate]
      push_cast
      norm_num
    rw [hsum]
    have hsqrt : Real.sqrt 4 = 2 := by
      rw [show (4 : ℝ) = 2 ^ 2 by norm_num, Real.sqrt_sq (by norm_num : (0 : ℝ) ≤ 2)]
    rw [hsqrt, if_pos (by norm_num : (0 : ℝ) < 2)]
    rw [show ((Rat.cast (2 : ℚ) : ℝ)) / 2 = 1 by norm_num,
      show ((Rat.cast (0 : ℚ) : ℝ)) / 2 = 0 by norm_num]
  have hR : ((exampleWindow.footReadings.map footReadingToVector).flatten).map
        (fun x => (Rat.cast x : ℝ)) ++ List.replicate 216 (0 : ℝ)
      = (2 : ℝ) :: List.replicate 269 0 := by
    rw [hflat]
    simp only [List.map_cons, List.map_replicate]
    rw [show ((Rat.cast (0 : ℚ) : ℝ)) = 0 by norm_num,
      show ((Rat.cast (2 : ℚ) : ℝ)) = 2 by norm_num,
      List.cons_append, ← List.replicate_add]
  rw [hL, hR]
  intro h
  rw [List.cons.injEq] at h
  exact absurd h.1 (by norm_num)

/-- Witness for `windowToVector_three_foot_padding` at
`exampleWindow`. -/
theorem windowToVector_three_foot_padding_witness :
    (exampleWindow.footReadings.length = 3 ∧ exampleWindow.accelReadings = [])
    ∧ ∃ c : ℝ, 0 < c ∧
      windowToVector exampleWindow
        = ((exampleWindow.footReadings.map footReadingToVector).flatten).map
            (fun x => c * (Rat.cast x : ℝ))
          ++ List.replicate 216 (0 : ℝ) :=
  ⟨⟨by decide, by decide⟩,
   windowToVector_three_foot_padding exampleWindow (by decide) (by decide)⟩

theorem mem_deleteSession_ids_iff (st : VState) (sessionId : String)
    (hnd : (st.index.map (·.id)).Nodup) (p : Point) (hp : p ∈ st.index) :
    (p.id ∈ (st.index.filter (fun q => q.payload.sessionId = sessionId)).map (·.id)
      ↔ p.payload.sessionId = sessionId) := by
  constructor
  · intro hmem
    rw [List.mem_map] at hmem
    obtain ⟨q, hq, hqid⟩ := hmem
    have hqp : q = p :=
      List.inj_on_of_nodup_map hnd (List.mem_of_mem_filter hq) hp hqid
    have hqs := List.of_mem_filter hq
    rw [hqp] at hqs
    simpa using hqs
  · intro hs
    exact List.mem_map_of_mem _ (List.mem_filter.mpr ⟨hp, by simpa using hs⟩)

/-- Claim C7: `delete_session(X)` removes every point whose payload
`session_id` is `X`, keeps every point of any other session (same
point, vector and payload untouched), adds nothing, leaves the
in-progress windows alone, and returns the number of points removed. -/
theorem deleteSession_spec (st : VState) (sessionId : String)
    (hnd : (st.index.map (·.id)).Nodup) :
    (deleteSession st sessionId).1
      = (st.index.filter (fun p => p.payload.sessionId = sessionId)).length
    ∧ (∀ p ∈ st.index, p.payload.sessionId = sessionId →
        p ∉ (deleteSession st sessionId).2.index)
    ∧ (∀ p ∈ st.index, p.payload.sessionId ≠ sessionId →
        p ∈ (deleteSession st sessionId).2.index)
    ∧ (∀ p ∈ (deleteSession st sessionId).2.index, p ∈ st.index)
    ∧ (deleteSession st sessionId).2.windows = st.windows := by
  refine ⟨by simp [deleteSession], ?_, ?_, ?_, by simp [deleteSession]⟩
  · intro p hp hs
    have hid := (mem_deleteSession_ids_iff st sessionId hnd p hp).mpr hs
    intro hmem
    simp only [deleteSession] at hmem
    split at hmem
    · rename_i hempty
      rw [List.isEmpty_iff] at hempty
      rw [hempty] at hid
      simp at hid
    · have := List.of_mem_filter hmem
      simp only [decide_eq_true_eq] at this
      exact this hid
  · intro p hp hs
    have hid : p.id ∉ (st.index.filter
        (fun q => q.payload.sessionId = sessionId)).map (·.id) :=
      fun hmem => hs ((mem_deleteSession_ids_iff st sessionId hnd p hp).mp hmem)
    simp only [deleteSession]
    split
    · exact hp
    · exact List.mem_filter.mpr ⟨hp, by simpa using hid⟩
  · intro p hp
    simp only [deleteSession] at hp
    split at hp
    · exact hp
    · exact List.mem_of_mem_filter hp

/-- Witness for `deleteSession_spec`: two points from session `"a"` and
one from `"b"`, then delete session `"a"`. -/
theorem deleteSession_spec_witness :
    (((⟨[], [⟨"p1", [], ⟨"a", "d", 0, 1, 0, 0, none, [], []⟩⟩,
        ⟨"p2", [], ⟨"b", "d", 0, 1, 0, 0, none, [], []⟩⟩,
        ⟨"p3", [], ⟨"a", "d", 1, 2, 0, 0, none, [], []⟩⟩]⟩ : VState).index.map (·.id)).Nodup)
    ∧ ((deleteSession ⟨[], [⟨"p1", [], ⟨"a", "d", 0, 1, 0, 0, none, [], []⟩⟩,
        ⟨"p2", [], ⟨"b", "d", 0, 1, 0, 0, none, [], []⟩⟩,
        ⟨"p3", [], ⟨"a", "d", 1, 2, 0, 0, none, [], []⟩⟩]⟩ "a").1
        = ((⟨[], [⟨"p1", [], ⟨"a", "d", 0, 1, 0, 0, none, [], []⟩⟩,
          ⟨"p2", [], ⟨"b", "d", 0, 1, 0, 0, none, [], []⟩⟩,
          ⟨"p3", [], ⟨"a", "d", 1, 2, 0, 0, none, [], []⟩⟩]⟩ : VState).index.filter
            (fun p => p.payload.sessionId = "a")).length
      ∧ (∀ p ∈ (⟨[], [⟨"p1", [], ⟨"a", "d", 0, 1, 0, 0, none, [], []⟩⟩,
          ⟨"p2", [], ⟨"b", "d", 0, 1, 0, 0, none, [], []⟩⟩,
          ⟨"p3", [], ⟨"a", "d", 1, 2, 0, 0, none, [], []⟩⟩]⟩ : VState).index,
          p.payload.sessionId = "a" →
          p ∉ (deleteSession ⟨[], [⟨"p1", [], ⟨"a", "d", 0, 1, 0, 0, none, [], []⟩⟩,
            ⟨"p2", [], ⟨"b", "d", 0, 1, 0, 0, none, [], []⟩⟩,
            ⟨"p3", [], ⟨"a", "d", 1, 2, 0, 0, none, [], []⟩⟩]⟩ "a").2.index)
      ∧ (∀ p ∈ (⟨[], [⟨"p1", [], ⟨"a", "d", 0, 1, 0, 0, none, [], []⟩⟩,
          ⟨"p2", [], ⟨"b", "d", 0, 1, 0, 0, none, [], []⟩⟩,
          ⟨"p3", [], ⟨"a", "d", 1, 2, 0, 0, none, [], []⟩⟩]⟩ : VState).index,
          p.payload.sessionId ≠ "a" →
          p ∈ (deleteSession ⟨[], [⟨"p1", [], ⟨"a", "d", 0, 1, 0, 0, none, [], []⟩⟩,
            ⟨"p2", [], ⟨"b", "d", 0, 1, 0, 0, none, [], []⟩⟩,
            ⟨"p3", [], ⟨"a", "d", 1, 2, 0, 0, none, [], []⟩⟩]⟩ "a").2.index)
      ∧ (∀ p ∈ (deleteSession ⟨[], [⟨"p1", [], ⟨"a", "d", 0, 1, 0, 0, none, [], []⟩⟩,
          ⟨"p2", [], ⟨"b", "d", 0, 1, 0, 0, none, [], []⟩⟩,
          ⟨"p3", [], ⟨"a", "d", 1, 2, 0, 0, none, [], []⟩⟩]⟩ "a").2.index,
          p ∈ (⟨[], [⟨"p1", [], ⟨"a", "d", 0, 1, 0, 0, none, [], []⟩⟩,
            ⟨"p2", [], ⟨"b", "d", 0, 1, 0, 0, none, [], []⟩⟩,
            ⟨"p3", [], ⟨"a", "d", 1, 2, 0, 0, none, [], []⟩⟩]⟩ : VState).index)
      ∧ (deleteSession ⟨[], [⟨"p1", [], ⟨"a", "d", 0, 1, 0, 0, none, [], []⟩⟩,
          ⟨"p2", [], ⟨"b", "d", 0, 1, 0, 0, none, [], []⟩⟩,
          ⟨"p3", [], ⟨"a", "d", 1, 2, 0, 0, none, [], []⟩⟩]⟩ "a").2.windows
        = (⟨[], [⟨"p1", [], ⟨"a", "d", 0, 1, 0, 0, none, [], []⟩⟩,
          ⟨"p2", [], ⟨"b", "d", 0, 1, 0, 0, none, [], []⟩⟩,
          ⟨"p3", [], ⟨"a", "d", 1, 2, 0, 0, none, [], []⟩⟩]⟩ : VState).windows) :=
  ⟨by simp,
   deleteSession_spec ⟨[], [⟨"p1", [], ⟨"a", "d", 0, 1, 0, 0, none, [], []⟩⟩,
     ⟨"p2", [], ⟨"b", "d", 0, 1, 0, 0, none, [], []⟩⟩,
     ⟨"p3", [], ⟨"a", "d", 1, 2, 0, 0, none, [], []⟩⟩]⟩ "a" (by simp)⟩

/-- Claim C10 (implicit): `add_reading` with an empty (falsy) session
id returns `None` and leaves the assembler and index state untouched. -/
theorem addReading_empty_session (cfg : QdrantConfig) (st : VState)
    (sensorType : String) (r : Reading) (now : Int) (freshId : String) :
    addReading cfg st "" sensorType r now freshId = (none, st) := by
  simp [addReading]

end FirefighterServer
